import Mathlib

/-!
Formal model of the Agentify repository, shallowly embedded in Lean 4.

Each definition mirrors one function (or one inline code region) of the
Python source; the file is organised as: all definitions first, then the
theorems settling the specification claims.

Sources embedded here:
  * `src/app.py` (lightweight chat server, variant A)
  * `src/backend/app.py` (multi-tenant backend)
  * `src/backend/src/mcp_client.py` (MCP orchestration client)
  * `src/backend/src/auth.py` (password hashing)
  * `src/src/config_manager.py` (secure configuration manager)
-/

/-! ## Python string helpers

`str.split()` with no argument splits on runs of whitespace and drops
empty fragments; `str.strip()` removes leading and trailing whitespace.
-/

/-- Whitespace characters recognised by Python `str.split()` / `str.strip()`. -/
def pyIsSpace (c : Char) : Bool :=
  c = ' ' || c = '\t' || c = '\n' || c = '\x0d' || c = '\x0b' || c = '\x0c'

/-- Accumulator-based worker for `pySplit`; `acc` holds the current word
reversed. -/
def pySplitAux : List Char → List Char → List (List Char)
  | [], acc => if acc.isEmpty then [] else [acc.reverse]
  | c :: rest, acc =>
    if pyIsSpace c then
      if acc.isEmpty then pySplitAux rest [] else acc.reverse :: pySplitAux rest []
    else
      pySplitAux rest (c :: acc)

/-- Python `message.split()`: whitespace-separated words, empties dropped. -/
def pySplit (s : String) : List String :=
  (pySplitAux s.data []).map String.mk

/-- Python `s.strip()`. -/
def pyStrip (s : String) : String :=
  String.mk (((s.data.dropWhile pyIsSpace).reverse.dropWhile pyIsSpace).reverse)

/-! ## Auto-titling (src/app.py chat_api / chat_stream / websocket chat,
src/backend/app.py chat)

Source (identical in all occurrences):
```
title_words = message.split()[:4]
title = " ".join(title_words) + ("..." if len(title_words) == 4 else "")
```
-/

/-- Thread auto-title computed from the first message, as in
`src/app.py:288-289` and `src/backend/app.py:348-349`. -/
def autoThreadTitle (message : String) : String :=
  let titleWords := (pySplit message).take 4
  if titleWords.length = 4 then
    String.intercalate " " titleWords ++ "..."
  else
    String.intercalate " " titleWords

/-! ## Backend chat transcript (src/backend/app.py chat, lines 371-394)

The handler adds the new user message to the session (`db.add`), then runs
`SELECT ... WHERE thread_id = ? ORDER BY created_at LIMIT 20`; SQLAlchemy
autoflush inserts the pending user message before the select, so the stored
order at query time is the prior messages followed by the new user turn.
`LIMIT 20` after an ascending `ORDER BY` keeps the FIRST twenty stored
messages.  The handler then appends the new user turn once more.
-/

/-- One role/content turn of a conversation. -/
structure ChatTurn where
  role : String
  content : String
deriving DecidableEq, Repr

/-- The history query of `src/backend/app.py:380-385`:
ascending stored order, `LIMIT 20` — the first twenty stored messages. -/
def chatHistoryQuery (stored : List ChatTurn) : List ChatTurn :=
  stored.take 20

/-- The transcript handed to `process_user_query` by
`src/backend/app.py:388-394`: query result plus the new user turn. -/
def chatTranscript (prior : List ChatTurn) (newMessage : String) : List ChatTurn :=
  let storedAfterAdd := prior ++ [⟨"user", newMessage⟩]
  chatHistoryQuery storedAfterAdd ++ [⟨"user", newMessage⟩]

/-- Modelled from the spec: the transcript the spec describes — "the last 20
stored messages plus the new user turn" (spec §4.10); the code's own inline
comment ("Last 20 messages for context") states the same intent. -/
def chatTranscriptSpecIntent (prior : List ChatTurn) (newMessage : String) : List ChatTurn :=
  (prior.drop (prior.length - 20)) ++ [⟨"user", newMessage⟩]

/-- A thread holding 21 prior stored messages, the C6 failing input. -/
def c6PriorMessages : List ChatTurn :=
  (List.range 21).map (fun i => ⟨if i % 2 = 0 then "user" else "assistant", toString i⟩)

/-! ## Multi-tenant backend rows and owner-scoped endpoints
(src/backend/app.py)

Relational rows are modelled as list elements; `SELECT ... WHERE id = ? AND
user_id = ?` with `scalar_one_or_none()` is `List.find?` over the conjunction
of both filters.  Ids are `Nat` (standing for UUIDs).
-/

/-- A `chat_threads` row. -/
structure ThreadRow where
  id : Nat
  userId : Nat
  title : String
  isArchived : Bool
deriving DecidableEq, Repr

/-- A `chat_messages` row (list order = `created_at` order). -/
structure MessageRow where
  threadId : Nat
  role : String
  content : String
deriving DecidableEq, Repr

/-- An `mcp_servers` row. -/
structure MCPServerRow where
  id : Nat
  userId : Nat
  name : String
  description : String
  serverType : String
  configuration : String
  isActive : Bool
deriving DecidableEq, Repr

/-- An `llm_configurations` row. -/
structure LLMConfigRow where
  id : Nat
  userId : Nat
  name : String
  provider : String
  modelName : String
  configuration : String
  isDefault : Bool
  isActive : Bool
deriving DecidableEq, Repr

/-- An HTTP error response (`HTTPException(status_code, detail)`). -/
structure HttpFailure where
  statusCode : Nat
  detail : String
deriving DecidableEq, Repr

/-- `MCPServerUpdate` schema: every field optional. -/
structure MCPServerUpdate where
  name : Option String
  description : Option String
  serverType : Option String
  configuration : Option String
  isActive : Option Bool
deriving Repr

/-- `LLMConfigurationCreate` schema (spec default: `is_default` false). -/
structure LLMConfigCreate where
  name : String
  provider : String
  modelName : String
  configuration : String
  isDefault : Bool := false
deriving Repr

/-- `LLMConfigurationUpdate` schema: every field optional. -/
structure LLMConfigUpdate where
  name : Option String
  provider : Option String
  modelName : Option String
  configuration : Option String
  isDefault : Option Bool
  isActive : Option Bool
deriving Repr

/-- The owner-scoped thread lookup shared by `get_thread_messages`, `chat`
and `delete_thread`
(`select(ChatThread).where(ChatThread.id == tid, ChatThread.user_id == uid)`). -/
def findThreadOwned (threads : List ThreadRow) (uid tid : Nat) : Option ThreadRow :=
  threads.find? (fun t => t.id == tid && t.userId == uid)

/-- `GET /api/threads/{thread_id}/messages` (src/backend/app.py:303-330). -/
def getThreadMessages (threads : List ThreadRow) (messages : List MessageRow)
    (uid tid : Nat) : Except HttpFailure (List MessageRow) :=
  match findThreadOwned threads uid tid with
  | none => .error ⟨404, "Thread not found"⟩
  | some _ => .ok (messages.filter (fun m => m.threadId == tid))

/-- The existing-thread branch of `POST /api/chat`
(src/backend/app.py:359-369): verify the thread belongs to the caller. -/
def chatThreadLookup (threads : List ThreadRow) (uid tid : Nat) :
    Except HttpFailure ThreadRow :=
  match findThreadOwned threads uid tid with
  | none => .error ⟨404, "Thread not found"⟩
  | some t => .ok t

/-- `DELETE /api/threads/{thread_id}` (src/backend/app.py:433-455);
messages cascade-delete with the thread. -/
def deleteThread (threads : List ThreadRow) (messages : List MessageRow)
    (uid tid : Nat) : Except HttpFailure (List ThreadRow × List MessageRow) :=
  match findThreadOwned threads uid tid with
  | none => .error ⟨404, "Thread not found"⟩
  | some _ =>
    .ok (threads.filter (fun t => !(t.id == tid)),
         messages.filter (fun m => !(m.threadId == tid)))

/-- Field application for `MCPServerUpdate` (`if field is not None: ...`,
src/backend/app.py:514-523). -/
def applyMCPServerUpdate (s : MCPServerRow) (u : MCPServerUpdate) : MCPServerRow :=
  { s with
    name := u.name.getD s.name
    description := u.description.getD s.description
    serverType := u.serverType.getD s.serverType
    configuration := u.configuration.getD s.configuration
    isActive := u.isActive.getD s.isActive }

/-- `PUT /api/mcp/servers/{server_id}` (src/backend/app.py:494-528). -/
def updateMCPServer (servers : List MCPServerRow) (uid sid : Nat)
    (u : MCPServerUpdate) : Except HttpFailure (List MCPServerRow) :=
  match servers.find? (fun s => s.id == sid && s.userId == uid) with
  | none => .error ⟨404, "MCP server not found"⟩
  | some _ =>
    .ok (servers.map (fun s =>
      if s.id == sid && s.userId == uid then applyMCPServerUpdate s u else s))

/-- `DELETE /api/mcp/servers/{server_id}` (src/backend/app.py:530-551). -/
def deleteMCPServer (servers : List MCPServerRow) (uid sid : Nat) :
    Except HttpFailure (List MCPServerRow) :=
  match servers.find? (fun s => s.id == sid && s.userId == uid) with
  | none => .error ⟨404, "MCP server not found"⟩
  | some _ => .ok (servers.filter (fun s => !(s.id == sid)))

/-- The create path clears `is_default` on every configuration owned by the
same user (src/backend/app.py:577-584; the update path additionally keeps the
updated row itself, src/backend/app.py:621-631). -/
def clearUserDefaults (configs : List LLMConfigRow) (uid : Nat) : List LLMConfigRow :=
  configs.map (fun c => if c.userId == uid then { c with isDefault := false } else c)

/-- `POST /api/llm/configurations` (src/backend/app.py:569-599): when the new
configuration is marked default, first clear every default owned by the user,
then insert the new row. -/
def createLLMConfiguration (configs : List LLMConfigRow) (uid newId : Nat)
    (c : LLMConfigCreate) : List LLMConfigRow × LLMConfigRow :=
  let cleared := if c.isDefault then clearUserDefaults configs uid else configs
  let row : LLMConfigRow :=
    ⟨newId, uid, c.name, c.provider, c.modelName, c.configuration, c.isDefault, true⟩
  (cleared ++ [row], row)

/-- Field application for `LLMConfigurationUpdate`
(src/backend/app.py:633-645). -/
def applyLLMConfigUpdate (r : LLMConfigRow) (u : LLMConfigUpdate) : LLMConfigRow :=
  { r with
    name := u.name.getD r.name
    provider := u.provider.getD r.provider
    modelName := u.modelName.getD r.modelName
    configuration := u.configuration.getD r.configuration
    isDefault := u.isDefault.getD r.isDefault
    isActive := u.isActive.getD r.isActive }

/-- `PUT /api/llm/configurations/{config_id}` (src/backend/app.py:601-650):
owner-scoped lookup; when `is_default` is set truthy, clear the default flag
on every other configuration of the same user; then apply the field updates
to the found row. -/
def updateLLMConfiguration (configs : List LLMConfigRow) (uid cid : Nat)
    (u : LLMConfigUpdate) : Except HttpFailure (List LLMConfigRow) :=
  match configs.find? (fun c => c.id == cid && c.userId == uid) with
  | none => .error ⟨404, "LLM configuration not found"⟩
  | some _ =>
    let cleared :=
      if u.isDefault = some true then
        configs.map (fun r =>
          if r.userId == uid && !(r.id == cid) then { r with isDefault := false } else r)
      else configs
    .ok (cleared.map (fun r =>
      if r.id == cid && r.userId == uid then applyLLMConfigUpdate r u else r))

/-- `DELETE /api/llm/configurations/{config_id}`
(src/backend/app.py:652-673). -/
def deleteLLMConfiguration (configs : List LLMConfigRow) (uid cid : Nat) :
    Except HttpFailure (List LLMConfigRow) :=
  match configs.find? (fun c => c.id == cid && c.userId == uid) with
  | none => .error ⟨404, "LLM configuration not found"⟩
  | some _ => .ok (configs.filter (fun c => !(c.id == cid)))

/-- The configurations of `uid` currently flagged default. -/
def defaultsOf (configs : List LLMConfigRow) (uid : Nat) : List LLMConfigRow :=
  configs.filter (fun r => r.userId == uid && r.isDefault)

/-- At most one of `uid`'s configurations is flagged default. -/
def atMostOneDefault (configs : List LLMConfigRow) (uid : Nat) : Prop :=
  (defaultsOf configs uid).length ≤ 1

/-! ## Password hashing (src/backend/src/auth.py:40-62)

`get_password_hash` draws a fresh 32-byte salt, computes
PBKDF2-HMAC-SHA256(password, salt, 100000) and stores
`base64(salt + hash)`; `verify_password` decodes, splits at byte 32,
recomputes and compares.  The PBKDF2 primitive (with the UTF-8 encoding of
the password folded in) is a parameter of the embedding; base64 is
implemented concretely.  Bytes are `Nat` values below 256.
-/

/-- The standard base64 alphabet. -/
def b64Table : List Char :=
  "ABCDEFGHIJKLMNOPQRSTUVWXYZabcdefghijklmnopqrstuvwxyz0123456789+/".toList

/-- Character of a six-bit group. -/
def sextetChar (n : Nat) : Char :=
  b64Table.getD n '='

/-- Six-bit value of a base64 character, `none` for a non-alphabet char. -/
def charSextet (c : Char) : Option Nat :=
  let i := b64Table.indexOf c
  if i < 64 then some i else none

/-- base64-encode a byte list (standard padding). -/
def b64encodeBytes : List Nat → List Char
  | [] => []
  | [a] => [sextetChar (a / 4), sextetChar (a % 4 * 16), '=', '=']
  | [a, b] =>
    [sextetChar (a / 4), sextetChar (a % 4 * 16 + b / 16), sextetChar (b % 16 * 4), '=']
  | a :: b :: c :: rest =>
    sextetChar (a / 4) :: sextetChar (a % 4 * 16 + b / 16) ::
      sextetChar (b % 16 * 4 + c / 64) :: sextetChar (c % 64) :: b64encodeBytes rest

/-- base64-decode a character list; `none` on malformed input. -/
def b64decodeChars : List Char → Option (List Nat)
  | [] => some []
  | c1 :: c2 :: c3 :: c4 :: rest =>
    match charSextet c1, charSextet c2 with
    | some s1, some s2 =>
      if c3 = '=' then
        if c4 = '=' ∧ rest = [] then some [s1 * 4 + s2 / 16] else none
      else
        match charSextet c3 with
        | some s3 =>
          if c4 = '=' then
            if rest = [] then some [s1 * 4 + s2 / 16, s2 % 16 * 16 + s3 / 4] else none
          else
            match charSextet c4, b64decodeChars rest with
            | some s4, some tail =>
              some ((s1 * 4 + s2 / 16) :: (s2 % 16 * 16 + s3 / 4) :: (s3 % 4 * 64 + s4) :: tail)
            | _, _ => none
        | none => none
    | _, _ => none
  | _ => none

/-- `get_password_hash` (src/backend/src/auth.py:40-47): base64 of the fresh
32-byte salt concatenated with the PBKDF2 hash.  The randomly drawn salt is
an explicit argument of the embedding. -/
def get_password_hash (pbkdf2 : String → List Nat → List Nat)
    (password : String) (salt : List Nat) : String :=
  String.mk (b64encodeBytes (salt ++ pbkdf2 password salt))

/-- `verify_password` (src/backend/src/auth.py:49-62): decode the stored
value, split at byte 32, recompute with the stored salt and compare; any
decode failure is caught and yields `false`. -/
def verify_password (pbkdf2 : String → List Nat → List Nat)
    (plain hashed : String) : Bool :=
  match b64decodeChars hashed.data with
  | none => false
  | some bytes =>
    let salt := bytes.take 32
    let storedHash := bytes.drop 32
    pbkdf2 plain salt == storedHash

/-- A toy PBKDF2 stand-in used by the C5 witness: 32 bytes, first byte the
password length mod 256. -/
def c5ToyPBKDF2 (p : String) (_s : List Nat) : List Nat :=
  p.length % 256 :: List.replicate 31 0

/-- A concrete 32-byte salt. -/
def c5Salt0 : List Nat := List.replicate 32 0

/-- A different concrete 32-byte salt. -/
def c5Salt1 : List Nat := 1 :: List.replicate 31 0

/-! ## MCP orchestration client (src/backend/src/mcp_client.py)

`process_user_query` drives the bounded tool-calling loop.  The provider
(`_call_llm`), the JSON parser (`json.loads`), the tool-name-to-session map
and the tool invocation are the environment of the embedding; each may fail
(`Except.error` = a raised exception).  Parsed JSON argument values are
opaque: they are only forwarded to the tool invocation.
-/

/-- A provider-requested tool call (`{id, function.name, function.arguments}`). -/
structure ToolCallReq where
  id : String
  name : String
  arguments : String
deriving DecidableEq, Repr

/-- One entry of the client conversation buffer `self.messages`. -/
structure LLMMessage where
  role : String
  content : String
  toolCalls : List ToolCallReq := []
  toolCallId : Option String := none
deriving DecidableEq, Repr

/-- The provider reply (`response.choices[0].message`): optional content and
tool-call requests (`None`/empty list is falsy). -/
structure LLMReply where
  content : Option String
  toolCalls : List ToolCallReq
deriving DecidableEq, Repr

/-- Environment of the query loop: the provider call, `json.loads`, the
tool-session map (names plus invocation), each fallible. -/
structure MCPEnv where
  callLLM : List LLMMessage → Except String LLMReply
  jsonLoads : String → Except String String
  toolNames : List String
  callTool : String → String → Except String (List String)

/-- `_execute_tool_call` (src/backend/src/mcp_client.py:362-426): JSON parse
failure, unknown tool name and a raised tool invocation each produce a
role="tool" failure message instead of propagating. -/
def executeToolCall (env : MCPEnv) (tc : ToolCallReq) : LLMMessage :=
  match env.jsonLoads tc.arguments with
  | .error e =>
    ⟨"tool", "Error: Invalid JSON in tool arguments: " ++ e, [], some tc.id⟩
  | .ok args =>
    if tc.name ∈ env.toolNames then
      match env.callTool tc.name args with
      | .ok contents =>
        ⟨"tool", contents.headD "No output from tool", [], some tc.id⟩
      | .error e =>
        ⟨"tool", "Error: Error calling tool " ++ tc.name ++ ": " ++ e, [], some tc.id⟩
    else
      ⟨"tool", "Error: Tool " ++ tc.name ++ " not available in session map", [], some tc.id⟩

/-- Outcome of the while-loop of `process_user_query`: the reply at loop exit
(or the exception that escaped a provider re-call), the conversation buffer,
and the number of completed tool-call rounds. -/
structure LoopOutcome where
  finalReply : Except String LLMReply
  msgs : List LLMMessage
  iterations : Nat
deriving Repr

/-- The `while azure_response.tool_calls and iteration_count < max_iterations`
loop of src/backend/src/mcp_client.py:223-254: append the assistant turn with
its tool calls, execute each tool call, re-invoke the provider. -/
def queryLoop (env : MCPEnv) (maxIterations : Nat) (reply : LLMReply)
    (msgs : List LLMMessage) (count : Nat) : LoopOutcome :=
  if _h : reply.toolCalls ≠ [] ∧ count < maxIterations then
    match env.callLLM ((msgs ++ [⟨"assistant", reply.content.getD "", reply.toolCalls, none⟩])
        ++ reply.toolCalls.map (executeToolCall env)) with
    | .error e =>
      ⟨.error e, (msgs ++ [⟨"assistant", reply.content.getD "", reply.toolCalls, none⟩])
        ++ reply.toolCalls.map (executeToolCall env), count + 1⟩
    | .ok reply2 =>
      queryLoop env maxIterations reply2
        ((msgs ++ [⟨"assistant", reply.content.getD "", reply.toolCalls, none⟩])
          ++ reply.toolCalls.map (executeToolCall env)) (count + 1)
  else
    ⟨.ok reply, msgs, count⟩
termination_by maxIterations - count
decreasing_by omega

/-- The explanatory note appended on reaching the iteration ceiling
(src/backend/src/mcp_client.py:259). -/
def maxIterNote (maxIterations : Nat) : String :=
  "\n\n[Note: Reached maximum tool call iterations (" ++ toString maxIterations ++ ")]"

/-- Result of `process_user_query`: returned text, conversation buffer,
completed tool-call rounds. -/
structure QueryResult where
  result : String
  messages : List LLMMessage
  iterations : Nat
deriving Repr

/-- `process_user_query` (src/backend/src/mcp_client.py:197-272): guards for
a missing session and an empty query, the user turn append, the bounded
tool-calling loop, the ceiling note, the final assistant append, and the
top-level `except` that turns any exception into an
"Error processing query: ..." string. -/
def processUserQuery (env : MCPEnv) (hasSession : Bool) (userQuery : String)
    (msgs0 : List LLMMessage) (maxIterations : Nat := 10) : QueryResult :=
  if !hasSession then
    ⟨"Error: No MCP session available", msgs0, 0⟩
  else if (pyStrip userQuery).data.isEmpty then
    ⟨"Error: Empty query provided", msgs0, 0⟩
  else
    let msgs1 := msgs0 ++ [⟨"user", userQuery, [], none⟩]
    match env.callLLM msgs1 with
    | .error e => ⟨"Error processing query: " ++ e, msgs1, 0⟩
    | .ok reply0 =>
      match queryLoop env maxIterations reply0 msgs1 0 with
      | ⟨.error e, msgs, count⟩ => ⟨"Error processing query: " ++ e, msgs, count⟩
      | ⟨.ok finalReply, msgs, count⟩ =>
        let content0 := finalReply.content.getD ""
        let content :=
          if maxIterations ≤ count then content0 ++ maxIterNote maxIterations
          else content0
        let msgsOut :=
          if finalReply.toolCalls = [] then msgs ++ [⟨"assistant", content, [], none⟩]
          else msgs
        ⟨content, msgsOut, count⟩

/-- The C1 witness environment: a provider whose replies always carry a tool
call. -/
def c1Env : MCPEnv where
  callLLM := fun _ => .ok ⟨some "working", [⟨"call1", "t", "args"⟩]⟩
  jsonLoads := fun s => .ok s
  toolNames := ["t"]
  callTool := fun _ _ => .ok ["result"]

/-- A C4 witness environment: `json.loads` fails and the provider raises. -/
def c4Env : MCPEnv where
  callLLM := fun _ => .error "boom"
  jsonLoads := fun _ => .error "Expecting value: line 1 column 1 (char 0)"
  toolNames := []
  callTool := fun _ _ => .error "fail"

/-- A C4 witness environment for loop continuation: the first provider call
requests a tool absent from the session map, the second returns plain text. -/
def c4FlowEnv : MCPEnv where
  callLLM := fun msgs =>
    if msgs.length ≤ 1 then .ok ⟨some "calling", [⟨"c1", "missing", "x"⟩]⟩
    else .ok ⟨some "done", []⟩
  jsonLoads := fun s => .ok s
  toolNames := []
  callTool := fun _ _ => .ok ["out"]

/-! ## Secure configuration manager (src/src/config_manager.py)

`save_mcp_config`/`get_mcp_config` transform the "headers" map of a
configuration, testing each key with `k.lower().contains((...))`.  Python
`str` has no method `contains`, so this raises `AttributeError` at the first
header; the surrounding `try`/`except` catches it, so a save returns `False`
with nothing stored and a read returns `None`.  Fernet
encryption/decryption are parameters of the embedding.
-/

/-- A tool-server configuration document: an optional headers map plus the
remaining fields (kept opaque). -/
structure MCPConfigDoc where
  headers : Option (List (String × String))
  rest : List (String × String)
deriving DecidableEq, Repr

/-- `k.lower().contains(("key", "token", "secret", "password", "auth"))`
(src/src/config_manager.py:54,79): `str` has no attribute `contains`, so the
expression raises. -/
def pyStrContainsTuple (_k : String) : Except String Bool :=
  .error "AttributeError: str object has no attribute contains"

/-- The header-transforming dict comprehension of `save_mcp_config`
(src/src/config_manager.py:53-57): evaluates the credential test per item;
the first item raises. -/
def encryptHeaders (encrypt : String → String) :
    List (String × String) → Except String (List (String × String))
  | [] => .ok []
  | (k, v) :: rest => do
    let sensitive ← pyStrContainsTuple k
    let tail ← encryptHeaders encrypt rest
    .ok ((k, if sensitive then encrypt v else v) :: tail)

/-- The header-transforming dict comprehension of `get_mcp_config`
(src/src/config_manager.py:78-82). -/
def decryptHeaders (decrypt : String → String) :
    List (String × String) → Except String (List (String × String))
  | [] => .ok []
  | (k, v) :: rest => do
    let sensitive ← pyStrContainsTuple k
    let tail ← decryptHeaders decrypt rest
    .ok ((k, if sensitive then decrypt v else v) :: tail)

/-- `save_mcp_config` (src/src/config_manager.py:48-65): transform headers
(when present), `hset` the JSON, return True; any exception is caught and
False is returned with the store unchanged. -/
def save_mcp_config (encrypt : String → String)
    (store : List (String × MCPConfigDoc)) (serverId : String)
    (config : MCPConfigDoc) : Bool × List (String × MCPConfigDoc) :=
  match config.headers with
  | none => (true, (serverId, config) :: store.filter (fun p => !(p.1 == serverId)))
  | some hs =>
    match encryptHeaders encrypt hs with
    | .error _ => (false, store)
    | .ok hsEnc =>
      (true, (serverId, { config with headers := some hsEnc })
        :: store.filter (fun p => !(p.1 == serverId)))

/-- `get_mcp_config` (src/src/config_manager.py:67-88): `hget`, transform
headers back; missing id or any exception yields `None`. -/
def get_mcp_config (decrypt : String → String)
    (store : List (String × MCPConfigDoc)) (serverId : String) :
    Option MCPConfigDoc :=
  match store.find? (fun p => p.1 == serverId) with
  | none => none
  | some (_, config) =>
    match config.headers with
    | none => some config
    | some hs =>
      match decryptHeaders decrypt hs with
      | .error _ => none
      | .ok hsDec => some { config with headers := some hsDec }

/-- Boolean substring containment over character lists (Python `w in k`). -/
def hasSubstr (needle : List Char) : List Char → Bool
  | [] => needle.isEmpty
  | c :: rest => needle.isPrefixOf (c :: rest) || hasSubstr needle rest

/-- ASCII lower-casing of a character (Python `str.lower()` on ASCII keys). -/
def pyLowerChar (c : Char) : Char :=
  if 'A' ≤ c ∧ c ≤ 'Z' then Char.ofNat (c.toNat + 32) else c

/-- Python `k.lower()` over the key characters. -/
def pyLower (s : String) : String :=
  String.mk (s.data.map pyLowerChar)

/-- Modelled from the spec: the intended credential test of §4.2 — "true if
any of the candidate substrings occurs in the lower-cased field name"
(replacing the invalid `contains` call). -/
def isCredentialKey (k : String) : Bool :=
  ["key", "token", "secret", "password", "auth"].any
    (fun w => hasSubstr w.data (pyLower k).data)

/-- Modelled from the spec: `save_mcp_config` as intended — credential
headers encrypted, everything else stored in clear, returns true. -/
def specSaveMCPConfig (encrypt : String → String)
    (store : List (String × MCPConfigDoc)) (serverId : String)
    (config : MCPConfigDoc) : Bool × List (String × MCPConfigDoc) :=
  let config2 :=
    match config.headers with
    | none => config
    | some hs =>
      { config with headers := some (hs.map (fun p =>
          (p.1, if isCredentialKey p.1 then encrypt p.2 else p.2))) }
  (true, (serverId, config2) :: store.filter (fun p => !(p.1 == serverId)))

/-- Modelled from the spec: `get_mcp_config` as intended — credential
headers decrypted on read. -/
def specGetMCPConfig (decrypt : String → String)
    (store : List (String × MCPConfigDoc)) (serverId : String) :
    Option MCPConfigDoc :=
  match store.find? (fun p => p.1 == serverId) with
  | none => none
  | some (_, config) =>
    match config.headers with
    | none => some config
    | some hs =>
      some { config with headers := some (hs.map (fun p =>
        (p.1, if isCredentialKey p.1 then decrypt p.2 else p.2))) }

/-! ## Streaming chat endpoint (src/app.py chat_stream / generate_response,
lines 477-556)

The generator yields `data: <json>\n\n` frames.  JSON payloads are built as
`json.dumps` does for flat string-valued dicts, with `\x7b`/`\x7d` braces and
escaped string content.  The session manager, the tool-server reconnect and
the query processing are environment parameters.
-/

/-- The event kinds of the SSE stream. -/
inductive SSEKind where
  | system
  | thread_created
  | user_message
  | thinking
  | assistant_message
  | done
  | error
deriving DecidableEq, Repr

/-- One yielded SSE frame: its kind tag and its JSON object text. -/
structure SSEFrame where
  kind : SSEKind
  payload : String
deriving DecidableEq, Repr

/-- JSON string escaping of one character (as `json.dumps` renders the
common escapes; any other character passes through). -/
def jsonEscapeChar (c : Char) : List Char :=
  if c = '"' then ['\\', '"']
  else if c = '\\' then ['\\', '\\']
  else if c = '\n' then ['\\', 'n']
  else if c = '\x0d' then ['\\', 'r']
  else if c = '\t' then ['\\', 't']
  else [c]

/-- JSON string escaping of a character list. -/
def jsonEscapeList : List Char → List Char
  | [] => []
  | c :: rest => jsonEscapeChar c ++ jsonEscapeList rest

/-- JSON string escaping. -/
def jsonEscape (s : String) : String :=
  String.mk (jsonEscapeList s.data)

/-- A JSON string literal. -/
def jsonStr (s : String) : String :=
  "\"" ++ jsonEscape s ++ "\""

/-- The comma-joined `"key": "value"` fields of a JSON object. -/
def jsonFieldsJoin : List (String × String) → String
  | [] => ""
  | p :: rest =>
    jsonStr p.1 ++ ": " ++ jsonStr p.2 ++
      (if rest.isEmpty then "" else ", " ++ jsonFieldsJoin rest)

/-- `json.dumps` of a flat dict with string values, insertion order. -/
def jsonObj (fields : List (String × String)) : String :=
  "\x7b" ++ jsonFieldsJoin fields ++ "\x7d"

/-- One SSE line: `data: <json>` followed by a blank line. -/
def sseRender (payload : String) : String :=
  "data: " ++ payload ++ "\n\n"

/-- Environment of the streaming generator: thread creation (returns the new
thread id), tool-server reconnection, and the chat-processing region (an
`Except.error` is an exception raised anywhere in it). -/
structure StreamEnv where
  createThread : String → String
  reconnect : String → Except String Unit
  processResult : Except String String

/-- The body of `generate_response` after the optional URL-switch block
(src/app.py:499-556): thread creation (with `thread_created` frame), the
session guard, `user_message` and `thinking` echoes, then either
`assistant_message` + `done` or an `error` frame. -/
def streamAfterConnect (env : StreamEnv) (message : String)
    (threadId : Option String) (mcpSession : Bool) : List SSEFrame :=
  let created :=
    match threadId with
    | some tid => ([], tid)
    | none =>
      let tid := env.createThread (autoThreadTitle message)
      ([SSEFrame.mk .thread_created
          (jsonObj [("type", "thread_created"), ("thread_id", tid)])], tid)
  if !mcpSession then
    created.1 ++ [⟨.error, jsonObj [("type", "error"), ("content", "MCP server not connected")]⟩]
  else
    created.1
    ++ [⟨.user_message, jsonObj [("type", "user_message"), ("content", message)]⟩,
        ⟨.thinking, jsonObj [("type", "thinking"), ("content", "Processing your request...")]⟩]
    ++ match env.processResult with
       | .ok response =>
         [⟨.assistant_message, jsonObj [("type", "assistant_message"),
            ("content", response), ("thread_id", created.2)]⟩,
          ⟨.done, jsonObj [("type", "done")]⟩]
       | .error e =>
         [⟨.error, jsonObj [("type", "error"),
            ("content", "Error processing query: " ++ e)]⟩]

/-- `generate_response` (src/app.py:477-556): the optional tool-server URL
switch (a `system` frame on success, a terminating `error` frame on failure),
then the chat stream. -/
def generateResponse (env : StreamEnv) (message : String)
    (threadId mcpUrlInput : Option String) (mcpUrl : String)
    (mcpSession : Bool) : List SSEFrame :=
  match mcpUrlInput with
  | none => streamAfterConnect env message threadId mcpSession
  | some newUrl =>
    if newUrl = mcpUrl then streamAfterConnect env message threadId mcpSession
    else
      match env.reconnect newUrl with
      | .ok _ =>
        ⟨.system, jsonObj [("type", "system"),
          ("content", "Connected to MCP server: " ++ newUrl)]⟩
          :: streamAfterConnect env message threadId true
      | .error e =>
        [⟨.error, jsonObj [("type", "error"),
          ("content", "Error connecting to MCP server: " ++ e)]⟩]

/-! # Theorems -/

/-- C8 (amended): auto-titling. A message of more than four words yields the
first four words joined by single spaces followed by "..." — so the spec's
example message "Tell me about the solar system now" titles as
"Tell me about the..." (four words), not "Tell me about the solar..."; a
message of three or fewer words yields its words joined by single spaces with
nothing appended (equal to the literal message exactly when the message is
its words joined by single spaces). -/
theorem spec_c8_auto_title (m : String) :
    (4 < (pySplit m).length →
      autoThreadTitle m = String.intercalate " " ((pySplit m).take 4) ++ "...")
    ∧ ((pySplit m).length ≤ 3 →
      autoThreadTitle m = String.intercalate " " (pySplit m)
      ∧ (String.intercalate " " (pySplit m) = m → autoThreadTitle m = m))
    ∧ autoThreadTitle "Tell me about the solar system now" = "Tell me about the..." := by
  refine ⟨?_, ?_, by decide⟩
  · intro h
    have hlen : ((pySplit m).take 4).length = 4 := by
      rw [List.length_take]
      omega
    unfold autoThreadTitle
    simp [hlen]
  · intro h
    have htake : (pySplit m).take 4 = pySplit m := List.take_of_length_le (by omega)
    constructor
    · unfold autoThreadTitle
      simp only [htake]
      rw [if_neg (by omega)]
    · intro hlit
      unfold autoThreadTitle
      simp only [htake]
      rw [if_neg (by omega), hlit]

/-- C8 counterexample: the claim's own example fails — the title of
"Tell me about the solar system now" is "Tell me about the..." (first FOUR
words), not "Tell me about the solar..."; and "hi  there" (two spaces) has
two words but its title "hi there" is not the literal message, so "yields the
literal message as the title" fails on non-normalised whitespace. -/
theorem spec_c8_counterexample :
    autoThreadTitle "Tell me about the solar system now" ≠ "Tell me about the solar..."
    ∧ (pySplit "hi  there").length ≤ 3
    ∧ autoThreadTitle "hi  there" ≠ "hi  there" := by
  decide

/-- C8 witness. -/
theorem spec_c8_witness :
    autoThreadTitle "Tell me about the solar system now" =
      String.intercalate " " ((pySplit "Tell me about the solar system now").take 4) ++ "..."
    ∧ autoThreadTitle "hi you" = String.intercalate " " (pySplit "hi you") := by
  have h1 := spec_c8_auto_title "Tell me about the solar system now"
  have h2 := spec_c8_auto_title "hi you"
  exact ⟨h1.1 (by decide), (h2.2.1 (by decide)).1⟩

/-- C10: a message of exactly four words gets the ellipsis marker appended
even though no word was dropped — the marker is keyed to the slice length
being exactly four, not to actual truncation. -/
theorem spec_c10_four_word_ellipsis (m : String) (h : (pySplit m).length = 4) :
    autoThreadTitle m = String.intercalate " " (pySplit m) ++ "..." := by
  have htake : (pySplit m).take 4 = pySplit m := List.take_of_length_le (by omega)
  unfold autoThreadTitle
  simp [htake, h]

/-- C10 witness. -/
theorem spec_c10_witness :
    (pySplit "one two three four").length = 4
    ∧ autoThreadTitle "one two three four" =
        String.intercalate " " (pySplit "one two three four") ++ "..." :=
  ⟨by decide, spec_c10_four_word_ellipsis "one two three four" (by decide)⟩

/-- C6: on a thread with 21 stored messages the transcript handed to the
orchestration client is the FIRST twenty stored messages plus the new user
turn (`ORDER BY created_at` ascending then `LIMIT 20`), not the last twenty
as the spec — and the code's own comment "Last 20 messages for context" —
state. -/
theorem spec_c6_first_twenty_not_last :
    chatTranscript c6PriorMessages "new question"
      = c6PriorMessages.take 20 ++ [⟨"user", "new question"⟩]
    ∧ chatTranscript c6PriorMessages "new question"
      ≠ chatTranscriptSpecIntent c6PriorMessages "new question" := by
  decide

/-- Shared helper: an owner-scoped `find?` over id and owner projections
returns nothing when every row with the requested id has a different owner. -/
theorem ownedFind?_eq_none {α : Type} (l : List α) (fid fuid : α → Nat) (rid uid : Nat)
    (h : ∀ x ∈ l, fid x = rid → fuid x ≠ uid) :
    l.find? (fun x => fid x == rid && fuid x == uid) = none := by
  rw [List.find?_eq_none]
  intro x hx hpx
  rw [Bool.and_eq_true, beq_iff_eq, beq_iff_eq] at hpx
  exact h x hx hpx.1 hpx.2

/-- C2: owner isolation. Every lookup of a thread (message listing, chat with
an existing thread id, thread deletion), a tool-server configuration, or a
model configuration is filtered by the caller's owner id; when every row with
the requested id belongs to a different owner, the endpoint returns exactly
the 404 not-found response (so never the data and never a 403), and message
data is only ever returned for a thread owned by the caller. -/
theorem spec_c2_owner_isolation (threads : List ThreadRow) (messages : List MessageRow)
    (servers : List MCPServerRow) (configs : List LLMConfigRow) (uid rid : Nat)
    (updS : MCPServerUpdate) (updC : LLMConfigUpdate) :
    ((∀ t ∈ threads, t.id = rid → t.userId ≠ uid) →
      getThreadMessages threads messages uid rid = .error ⟨404, "Thread not found"⟩
      ∧ chatThreadLookup threads uid rid = .error ⟨404, "Thread not found"⟩
      ∧ deleteThread threads messages uid rid = .error ⟨404, "Thread not found"⟩)
    ∧ ((∀ s ∈ servers, s.id = rid → s.userId ≠ uid) →
      updateMCPServer servers uid rid updS = .error ⟨404, "MCP server not found"⟩
      ∧ deleteMCPServer servers uid rid = .error ⟨404, "MCP server not found"⟩)
    ∧ ((∀ c ∈ configs, c.id = rid → c.userId ≠ uid) →
      updateLLMConfiguration configs uid rid updC = .error ⟨404, "LLM configuration not found"⟩
      ∧ deleteLLMConfiguration configs uid rid = .error ⟨404, "LLM configuration not found"⟩)
    ∧ (∀ msgs, getThreadMessages threads messages uid rid = .ok msgs →
      ∃ t ∈ threads, t.id = rid ∧ t.userId = uid) := by
  refine ⟨?_, ?_, ?_, ?_⟩
  · intro h
    have hf : threads.find? (fun t => t.id == rid && t.userId == uid) = none :=
      ownedFind?_eq_none threads (fun t => t.id) (fun t => t.userId) rid uid h
    refine ⟨?_, ?_, ?_⟩ <;>
      simp [getThreadMessages, chatThreadLookup, deleteThread, findThreadOwned, hf]
  · intro h
    have hf : servers.find? (fun s => s.id == rid && s.userId == uid) = none :=
      ownedFind?_eq_none servers (fun s => s.id) (fun s => s.userId) rid uid h
    exact ⟨by simp [updateMCPServer, hf], by simp [deleteMCPServer, hf]⟩
  · intro h
    have hf : configs.find? (fun c => c.id == rid && c.userId == uid) = none :=
      ownedFind?_eq_none configs (fun c => c.id) (fun c => c.userId) rid uid h
    exact ⟨by simp [updateLLMConfiguration, hf], by simp [deleteLLMConfiguration, hf]⟩
  · intro msgs hok
    unfold getThreadMessages findThreadOwned at hok
    cases hfind : threads.find? (fun t => t.id == rid && t.userId == uid) with
    | none => rw [hfind] at hok; cases hok
    | some t =>
      have hmem := List.mem_of_find?_eq_some hfind
      have hp := List.find?_some hfind
      rw [Bool.and_eq_true, beq_iff_eq, beq_iff_eq] at hp
      exact ⟨t, hmem, hp.1, hp.2⟩

/-- C2 witness. -/
theorem spec_c2_witness :
    getThreadMessages [⟨7, 2, "t", false⟩] [⟨7, "user", "hello"⟩] 1 7
      = .error ⟨404, "Thread not found"⟩
    ∧ updateMCPServer [⟨7, 2, "n", "d", "sse", "cfg", true⟩] 1 7
        ⟨none, none, none, none, none⟩ = .error ⟨404, "MCP server not found"⟩
    ∧ updateLLMConfiguration [⟨7, 2, "n", "azure", "m", "cfg", true, true⟩] 1 7
        ⟨none, none, none, none, none, none⟩
      = .error ⟨404, "LLM configuration not found"⟩ := by
  have h := spec_c2_owner_isolation [⟨7, 2, "t", false⟩] [⟨7, "user", "hello"⟩]
    [⟨7, 2, "n", "d", "sse", "cfg", true⟩] [⟨7, 2, "n", "azure", "m", "cfg", true, true⟩]
    1 7 ⟨none, none, none, none, none⟩ ⟨none, none, none, none, none, none⟩
  exact ⟨(h.1 (by decide)).1, (h.2.1 (by decide)).1, (h.2.2.1 (by decide)).1⟩

/-- Shared helper: clearing a user's defaults leaves that user with no
default configuration. -/
theorem defaultsOf_clearUserDefaults (configs : List LLMConfigRow) (uid : Nat) :
    defaultsOf (clearUserDefaults configs uid) uid = [] := by
  induction configs with
  | nil => rfl
  | cons c cs ih =>
    by_cases hc : c.userId = uid
    · simpa [clearUserDefaults, defaultsOf, List.filter_cons, hc] using ih
    · simpa [clearUserDefaults, defaultsOf, List.filter_cons, hc] using ih

/-- Shared helper: a create marked default makes the new row the unique
default of its owner, whatever the prior state. -/
theorem defaultsOf_create_default (configs : List LLMConfigRow) (uid newId : Nat)
    (c : LLMConfigCreate) (hc : c.isDefault = true) :
    defaultsOf (createLLMConfiguration configs uid newId c).1 uid
      = [(createLLMConfiguration configs uid newId c).2] := by
  have h1 := defaultsOf_clearUserDefaults configs uid
  rw [defaultsOf] at h1
  simp [createLLMConfiguration, hc, defaultsOf, List.filter_append, h1]

/-- Shared helper: the update endpoint preserves the at-most-one-default
invariant (ids are unique, as the primary key guarantees). -/
theorem updateLLMConfiguration_preserves (configs : List LLMConfigRow) (uid cid : Nat)
    (u : LLMConfigUpdate) (hnd : (configs.map LLMConfigRow.id).Nodup)
    (h : atMostOneDefault configs uid) (out : List LLMConfigRow)
    (hok : updateLLMConfiguration configs uid cid u = .ok out) :
    atMostOneDefault out uid := by
  unfold updateLLMConfiguration at hok
  cases hfind : configs.find? (fun c => c.id == cid && c.userId == uid) with
  | none => rw [hfind] at hok; cases hok
  | some cfg =>
    rw [hfind] at hok
    simp only [Except.ok.injEq] at hok
    rw [atMostOneDefault, defaultsOf, ← List.countP_eq_length_filter] at h ⊢
    subst hok
    by_cases hdef : u.isDefault = some true
    · -- clear every other configuration of the user, then set the found one
      simp only [hdef, if_pos]
      rw [List.map_map, List.countP_map]
      have hmono : ∀ r ∈ configs,
          ((fun r : LLMConfigRow => r.userId == uid && r.isDefault) ∘
            ((fun r : LLMConfigRow =>
                if r.id == cid && r.userId == uid then applyLLMConfigUpdate r u else r) ∘
             (fun r : LLMConfigRow =>
                if r.userId == uid && !(r.id == cid) then { r with isDefault := false }
                else r))) r = true →
          (r.id == cid) = true := by
        intro r _ hpr
        by_cases hid : r.id = cid
        · simp [hid]
        · exfalso
          by_cases huser : r.userId = uid
          · simp [Function.comp, huser, hid, applyLLMConfigUpdate] at hpr
          · simp [Function.comp, huser, hid] at hpr
      calc List.countP _ configs
          ≤ List.countP (fun r : LLMConfigRow => r.id == cid) configs :=
            List.countP_mono_left hmono
        _ ≤ 1 := by
            have hcount := List.nodup_iff_count_le_one.mp hnd cid
            rw [List.count_eq_countP, List.countP_map] at hcount
            calc List.countP (fun r : LLMConfigRow => r.id == cid) configs
                = List.countP ((fun x => x == cid) ∘ LLMConfigRow.id) configs := by
                  apply List.countP_congr
                  intro r _
                  simp [Function.comp]
              _ ≤ 1 := hcount
    · -- is_default not set truthy: no configuration gains the default flag
      simp only [hdef, if_neg, ite_false]
      rw [List.countP_map]
      calc List.countP _ configs
          ≤ List.countP (fun r : LLMConfigRow => r.userId == uid && r.isDefault) configs := by
            apply List.countP_mono_left
            intro r _ hpr
            simp only [Function.comp] at hpr
            by_cases hcond : (r.id == cid && r.userId == uid) = true
            · rw [if_pos hcond] at hpr
              cases hu : u.isDefault with
              | none => simpa [applyLLMConfigUpdate, hu] using hpr
              | some b =>
                cases b with
                | true => exact absurd hu hdef
                | false => simp [applyLLMConfigUpdate, hu] at hpr
            · rwa [if_neg hcond] at hpr
        _ ≤ 1 := h

/-- C3: at most one default model configuration per user. A create marked
default makes the new row the unique default of its owner; in particular,
after two creates for the same user with the second marked default, exactly
one configuration of that user is default and it is the second; a create
preserves the at-most-one-default invariant, and so does an update (ids
unique), because setting the default clears every sibling's flag in the same
transaction. -/
theorem spec_c3_default_invariant (configs : List LLMConfigRow) (uid newId cid : Nat)
    (c : LLMConfigCreate) (u : LLMConfigUpdate) :
    (c.isDefault = true →
      defaultsOf (createLLMConfiguration configs uid newId c).1 uid
        = [(createLLMConfiguration configs uid newId c).2])
    ∧ (∀ (id1 : Nat) (c1 : LLMConfigCreate), c.isDefault = true →
      defaultsOf (createLLMConfiguration
          (createLLMConfiguration configs uid id1 c1).1 uid newId c).1 uid
        = [(createLLMConfiguration
          (createLLMConfiguration configs uid id1 c1).1 uid newId c).2])
    ∧ (atMostOneDefault configs uid →
      atMostOneDefault (createLLMConfiguration configs uid newId c).1 uid)
    ∧ ((configs.map LLMConfigRow.id).Nodup → atMostOneDefault configs uid →
      ∀ out, updateLLMConfiguration configs uid cid u = .ok out →
        atMostOneDefault out uid) := by
  refine ⟨fun hc => defaultsOf_create_default configs uid newId c hc,
    fun id1 c1 hc => defaultsOf_create_default _ uid newId c hc, ?_,
    fun hnd h out hok =>
      updateLLMConfiguration_preserves configs uid cid u hnd h out hok⟩
  intro h
  by_cases hc : c.isDefault = true
  · rw [atMostOneDefault, defaultsOf_create_default configs uid newId c hc]
    simp
  · have hc' : c.isDefault = false := by revert hc; cases c.isDefault <;> simp
    rw [atMostOneDefault, defaultsOf] at h ⊢
    simp [createLLMConfiguration, hc', List.filter_append]
    exact h

/-- C3 witness. -/
theorem spec_c3_witness :
    defaultsOf (createLLMConfiguration
        (createLLMConfiguration [⟨1, 1, "a", "azure", "m", "cfg", true, true⟩] 1 5
          ⟨"x", "google", "m0", "cfg", false⟩).1 1 2
        ⟨"b", "openai", "m2", "cfg", true⟩).1 1
      = [⟨2, 1, "b", "openai", "m2", "cfg", true, true⟩]
    ∧ updateLLMConfiguration [⟨1, 1, "a", "azure", "m", "cfg", true, true⟩] 1 1
        ⟨some "z", none, none, none, some true, none⟩
      = .ok [⟨1, 1, "z", "azure", "m", "cfg", true, true⟩]
    ∧ atMostOneDefault [⟨1, 1, "z", "azure", "m", "cfg", true, true⟩] 1 := by
  have h := spec_c3_default_invariant [⟨1, 1, "a", "azure", "m", "cfg", true, true⟩] 1 2 1
    ⟨"b", "openai", "m2", "cfg", true⟩ ⟨some "z", none, none, none, some true, none⟩
  refine ⟨h.2.1 5 ⟨"x", "google", "m0", "cfg", false⟩ rfl, rfl,
    h.2.2.2 (by decide) (by unfold atMostOneDefault defaultsOf; decide) _ rfl⟩

/-- Shared helper: decoding a base64 character of a six-bit value. -/
theorem charSextet_sextetChar : ∀ n, n < 64 → charSextet (sextetChar n) = some n := by
  decide

/-- Shared helper: six-bit values never encode to the padding character. -/
theorem sextetChar_ne_pad : ∀ n, n < 64 → sextetChar n ≠ '=' := by
  decide

/-- Shared helper: base64 decode is a left inverse of encode on byte lists. -/
theorem b64decode_encode (l : List Nat) (h : ∀ x ∈ l, x < 256) :
    b64decodeChars (b64encodeBytes l) = some l := by
  induction l using b64encodeBytes.induct with
  | case1 => rfl
  | case2 a =>
    have ha : a < 256 := h a (by simp)
    have h1 := charSextet_sextetChar (a / 4) (by omega)
    have h2 := charSextet_sextetChar (a % 4 * 16) (by omega)
    simp [b64encodeBytes, b64decodeChars, h1, h2]
    omega
  | case3 a b =>
    have ha : a < 256 := h a (by simp)
    have hb : b < 256 := h b (by simp)
    have h1 := charSextet_sextetChar (a / 4) (by omega)
    have h2 := charSextet_sextetChar (a % 4 * 16 + b / 16) (by omega)
    have h3 := charSextet_sextetChar (b % 16 * 4) (by omega)
    have hne3 := sextetChar_ne_pad (b % 16 * 4) (by omega)
    simp [b64encodeBytes, b64decodeChars, h1, h2, h3, hne3]
    omega
  | case4 a b c rest ih =>
    have ha : a < 256 := h a (by simp)
    have hb : b < 256 := h b (by simp)
    have hc : c < 256 := h c (by simp)
    have hrest : ∀ x ∈ rest, x < 256 := fun x hx => h x (by simp [hx])
    have h1 := charSextet_sextetChar (a / 4) (by omega)
    have h2 := charSextet_sextetChar (a % 4 * 16 + b / 16) (by omega)
    have h3 := charSextet_sextetChar (b % 16 * 4 + c / 64) (by omega)
    have h4 := charSextet_sextetChar (c % 64) (by omega)
    have hne3 := sextetChar_ne_pad (b % 16 * 4 + c / 64) (by omega)
    have hne4 := sextetChar_ne_pad (c % 64) (by omega)
    simp [b64encodeBytes, b64decodeChars, h1, h2, h3, h4, hne3, hne4, ih hrest]
    refine ⟨by omega, by omega, by omega⟩

/-- C5: password hashing round-trip. Verifying the original password against
its stored hash succeeds; verifying a password whose PBKDF2 value under the
stored salt differs fails; and hashing under two different 32-byte salts
yields two different stored values (the fresh random salt makes successive
hashes differ), with the stored value being base64 of salt concatenated with
the PBKDF2-HMAC-SHA256 hash. -/
theorem spec_c5_password_hashing (pbkdf2 : String → List Nat → List Nat)
    (hbytes : ∀ p s, ∀ x ∈ pbkdf2 p s, x < 256)
    (p q : String) (salt salt2 : List Nat)
    (hs : salt.length = 32) (hsb : ∀ x ∈ salt, x < 256)
    (hs2 : salt2.length = 32) (hs2b : ∀ x ∈ salt2, x < 256) :
    verify_password pbkdf2 p (get_password_hash pbkdf2 p salt) = true
    ∧ (pbkdf2 q salt ≠ pbkdf2 p salt →
        verify_password pbkdf2 q (get_password_hash pbkdf2 p salt) = false)
    ∧ (salt ≠ salt2 →
        get_password_hash pbkdf2 p salt ≠ get_password_hash pbkdf2 p salt2) := by
  have hvalid : ∀ (s r : List Nat), (∀ x ∈ s, x < 256) → (∀ x ∈ r, x < 256) →
      ∀ x ∈ s ++ r, x < 256 := by
    intro s r h1 h2 x hx
    rcases List.mem_append.mp hx with hm | hm
    · exact h1 x hm
    · exact h2 x hm
  have hdec : ∀ (pw : String) (s : List Nat), (∀ x ∈ s, x < 256) →
      b64decodeChars (String.mk (b64encodeBytes (s ++ pbkdf2 pw s))).data
        = some (s ++ pbkdf2 pw s) := by
    intro pw s hsb'
    exact b64decode_encode _ (hvalid s _ hsb' (hbytes pw s))
  refine ⟨?_, ?_, ?_⟩
  · rw [verify_password, get_password_hash, hdec p salt hsb]
    simp [List.take_left' hs, List.drop_left' hs]
  · intro hne
    rw [verify_password, get_password_hash, hdec p salt hsb]
    simp [List.take_left' hs, List.drop_left' hs, hne]
  · intro hne heq
    apply hne
    have hdata := congrArg String.data heq
    rw [get_password_hash, get_password_hash] at hdata
    have hlists : salt ++ pbkdf2 p salt = salt2 ++ pbkdf2 p salt2 := by
      have hd1 := hdec p salt hsb
      have hd2 := hdec p salt2 hs2b
      rw [show (String.mk (b64encodeBytes (salt ++ pbkdf2 p salt))).data
            = (String.mk (b64encodeBytes (salt2 ++ pbkdf2 p salt2))).data from hdata] at hd1
      rw [hd2] at hd1
      exact (Option.some.injEq _ _ ▸ hd1).symm
    have := congrArg (List.take 32) hlists
    rwa [List.take_left' hs, List.take_left' hs2] at this

/-- C5 witness. -/
theorem spec_c5_witness :
    verify_password c5ToyPBKDF2 "a" (get_password_hash c5ToyPBKDF2 "a" c5Salt0) = true
    ∧ verify_password c5ToyPBKDF2 "bc" (get_password_hash c5ToyPBKDF2 "a" c5Salt0) = false
    ∧ get_password_hash c5ToyPBKDF2 "a" c5Salt0 ≠ get_password_hash c5ToyPBKDF2 "a" c5Salt1 := by
  have hbytes : ∀ p s, ∀ x ∈ c5ToyPBKDF2 p s, x < 256 := by
    intro p s x hx
    rcases List.mem_cons.mp hx with rfl | hm
    · exact Nat.mod_lt _ (by norm_num)
    · rw [List.eq_of_mem_replicate hm]; norm_num
  have h := spec_c5_password_hashing c5ToyPBKDF2 hbytes "a" "bc" c5Salt0 c5Salt1
    (by decide) (by decide) (by decide) (by decide)
  exact ⟨h.1, h.2.1 (by decide), h.2.2 (by decide)⟩

/-- Shared helper: the tool-calling loop never exceeds the iteration
ceiling. -/
theorem queryLoop_iterations_le (env : MCPEnv) (maxIterations : Nat) (reply : LLMReply)
    (msgs : List LLMMessage) (count : Nat) (hc : count ≤ maxIterations) :
    (queryLoop env maxIterations reply msgs count).iterations ≤ maxIterations := by
  induction reply, msgs, count using queryLoop.induct env maxIterations with
  | case1 reply msgs count hcond e herr =>
    rw [queryLoop, dif_pos hcond]
    simp only [herr]
    omega
  | case2 reply msgs count hcond reply2 hok ih =>
    rw [queryLoop, dif_pos hcond]
    simp only [hok]
    exact ih (by omega)
  | case3 reply msgs count hcond =>
    rw [queryLoop, dif_neg hcond]
    exact hc

/-- Shared helper: under a provider that always requests tool calls, the
loop runs to the ceiling and still exits holding tool-call requests. -/
theorem queryLoop_always_tools (env : MCPEnv) (maxIterations : Nat)
    (halways : ∀ msgs, ∃ r, env.callLLM msgs = .ok r ∧ r.toolCalls ≠ [])
    (reply : LLMReply) (msgs : List LLMMessage) (count : Nat)
    (hc : count ≤ maxIterations) (htc : reply.toolCalls ≠ []) :
    (queryLoop env maxIterations reply msgs count).iterations = maxIterations
    ∧ ∃ r, (queryLoop env maxIterations reply msgs count).finalReply = .ok r
        ∧ r.toolCalls ≠ [] := by
  induction reply, msgs, count using queryLoop.induct env maxIterations with
  | case1 reply msgs count hcond e herr =>
    obtain ⟨r, hr, _⟩ := halways ((msgs ++
      [⟨"assistant", reply.content.getD "", reply.toolCalls, none⟩])
      ++ reply.toolCalls.map (executeToolCall env))
    rw [herr] at hr
    cases hr
  | case2 reply msgs count hcond reply2 hok ih =>
    rw [queryLoop, dif_pos hcond]
    simp only [hok]
    apply ih (by omega)
    obtain ⟨r, hr, hrt⟩ := halways ((msgs ++
      [⟨"assistant", reply.content.getD "", reply.toolCalls, none⟩])
      ++ reply.toolCalls.map (executeToolCall env))
    rw [hok] at hr
    cases hr
    exact hrt
  | case3 reply msgs count hcond =>
    rw [queryLoop, dif_neg hcond]
    have hge : ¬ count < maxIterations := fun hlt => hcond ⟨htc, hlt⟩
    exact ⟨show count = maxIterations by omega, reply, rfl, htc⟩

/-- C1: the tool-calling loop of `process_user_query` performs at most 10
rounds; against a provider whose replies always carry tool calls it performs
exactly 10 rounds and the returned text is the final assistant content with
the maximum-iterations notice appended. -/
theorem spec_c1_tool_loop_ceiling (env : MCPEnv) (hasSession : Bool)
    (userQuery : String) (msgs0 : List LLMMessage) :
    (processUserQuery env hasSession userQuery msgs0).iterations ≤ 10
    ∧ ((∀ msgs, ∃ r, env.callLLM msgs = .ok r ∧ r.toolCalls ≠ []) →
      hasSession = true → ¬ (pyStrip userQuery).data.isEmpty →
      (processUserQuery env hasSession userQuery msgs0).iterations = 10
      ∧ ∃ c, (processUserQuery env hasSession userQuery msgs0).result
          = c ++ maxIterNote 10)
    ∧ maxIterNote 10 = "\n\n[Note: Reached maximum tool call iterations (10)]" := by
  refine ⟨?_, ?_, by decide⟩
  · unfold processUserQuery
    cases hasSession with
    | false => simp
    | true =>
      simp only [Bool.not_true, Bool.false_eq_true, if_false]
      by_cases he : (pyStrip userQuery).data.isEmpty
      · simp [he]
      · simp only [he, if_false]
        cases hcall : env.callLLM (msgs0 ++ [⟨"user", userQuery, [], none⟩]) with
        | error e => simp
        | ok reply0 =>
          have hb := queryLoop_iterations_le env 10 reply0
            (msgs0 ++ [⟨"user", userQuery, [], none⟩]) 0 (by omega)
          rcases hq : queryLoop env 10 reply0 (msgs0 ++ [⟨"user", userQuery, [], none⟩]) 0
            with ⟨fr, msgsL, cnt⟩
          rw [hq] at hb
          simp only [hq]
          cases fr <;> simpa using hb
  · intro halways hs he
    subst hs
    obtain ⟨r0, hr0, hr0t⟩ := halways (msgs0 ++ [⟨"user", userQuery, [], none⟩])
    have hloop := queryLoop_always_tools env 10 halways r0
      (msgs0 ++ [⟨"user", userQuery, [], none⟩]) 0 (by omega) hr0t
    rcases hq : queryLoop env 10 r0 (msgs0 ++ [⟨"user", userQuery, [], none⟩]) 0
      with ⟨fr, msgsL, cnt⟩
    rw [hq] at hloop
    obtain ⟨hcnt, rf, hfr, _⟩ := hloop
    simp only at hcnt hfr
    subst hcnt hfr
    unfold processUserQuery
    simp only [Bool.not_true, Bool.false_eq_true, if_false, he, hr0, hq]
    refine ⟨?_, rf.content.getD "", ?_⟩ <;> simp

/-- C1 witness. -/
theorem spec_c1_witness :
    (processUserQuery c1Env true "hello" []).iterations = 10
    ∧ ∃ c, (processUserQuery c1Env true "hello" []).result = c ++ maxIterNote 10 := by
  have h := spec_c1_tool_loop_ceiling c1Env true "hello" []
  exact h.2.1 (fun msgs => ⟨⟨some "working", [⟨"call1", "t", "args"⟩]⟩, rfl, by decide⟩)
    rfl (by decide)

/-- C4: error containment in `process_user_query`. Every tool-call outcome is
a role="tool" message carrying the call id; malformed JSON arguments, an
unknown tool name and a raised tool invocation each yield a failure-text tool
message; a provider exception is caught at the top level and returned as an
"Error processing query: ..." string; and after a failed tool call the loop
continues: the failure message is appended to the buffer, the provider is
re-invoked, and its text is returned. -/
theorem spec_c4_error_containment (env : MCPEnv) (tc : ToolCallReq)
    (hasSession : Bool) (userQuery : String) (msgs0 : List LLMMessage) :
    ((executeToolCall env tc).role = "tool"
      ∧ (executeToolCall env tc).toolCallId = some tc.id)
    ∧ (∀ e, env.jsonLoads tc.arguments = .error e →
        (executeToolCall env tc).content = "Error: Invalid JSON in tool arguments: " ++ e)
    ∧ (∀ args, env.jsonLoads tc.arguments = .ok args → tc.name ∉ env.toolNames →
        (executeToolCall env tc).content
          = "Error: Tool " ++ tc.name ++ " not available in session map")
    ∧ (∀ args e, env.jsonLoads tc.arguments = .ok args → tc.name ∈ env.toolNames →
        env.callTool tc.name args = .error e →
        (executeToolCall env tc).content
          = "Error: Error calling tool " ++ tc.name ++ ": " ++ e)
    ∧ (∀ e, hasSession = true → ¬ (pyStrip userQuery).data.isEmpty →
        env.callLLM (msgs0 ++ [⟨"user", userQuery, [], none⟩]) = .error e →
        (processUserQuery env hasSession userQuery msgs0).result
          = "Error processing query: " ++ e)
    ∧ (∀ r1 r2, hasSession = true → ¬ (pyStrip userQuery).data.isEmpty →
        env.callLLM (msgs0 ++ [⟨"user", userQuery, [], none⟩]) = .ok r1 →
        r1.toolCalls = [tc] →
        env.callLLM (((msgs0 ++ [⟨"user", userQuery, [], none⟩])
          ++ [⟨"assistant", r1.content.getD "", [tc], none⟩])
          ++ [executeToolCall env tc]) = .ok r2 →
        r2.toolCalls = [] →
        (processUserQuery env hasSession userQuery msgs0).result = r2.content.getD ""
        ∧ executeToolCall env tc ∈ (processUserQuery env hasSession userQuery msgs0).messages) := by
  refine ⟨⟨?_, ?_⟩, ?_, ?_, ?_, ?_, ?_⟩
  · unfold executeToolCall
    rcases env.jsonLoads tc.arguments with e | args
    · rfl
    · by_cases hm : tc.name ∈ env.toolNames
      · simp only [hm, ite_true]
        rcases env.callTool tc.name args with e | contents <;> rfl
      · simp [hm]
  · unfold executeToolCall
    rcases env.jsonLoads tc.arguments with e | args
    · rfl
    · by_cases hm : tc.name ∈ env.toolNames
      · simp only [hm, ite_true]
        rcases env.callTool tc.name args with e | contents <;> rfl
      · simp [hm]
  · intro e he
    unfold executeToolCall
    rw [he]
  · intro args hargs hm
    unfold executeToolCall
    rw [hargs]
    simp [hm]
  · intro args e hargs hm hcall
    unfold executeToolCall
    rw [hargs]
    simp [hm, hcall]
  · intro e hs he hcall
    subst hs
    unfold processUserQuery
    simp [he, hcall]
  · intro r1 r2 hs he hcall1 htc1 hcall2 htc2
    subst hs
    have hq : queryLoop env 10 r1 (msgs0 ++ [⟨"user", userQuery, [], none⟩]) 0
        = ⟨.ok r2, ((msgs0 ++ [⟨"user", userQuery, [], none⟩])
            ++ [⟨"assistant", r1.content.getD "", [tc], none⟩])
            ++ [executeToolCall env tc], 1⟩ := by
      rw [queryLoop, dif_pos ⟨by rw [htc1]; simp, by omega⟩, htc1]
      simp only [List.map_cons, List.map_nil]
      simp only [hcall2]
      rw [queryLoop, dif_neg (fun hco => hco.1 htc2)]
    unfold processUserQuery
    simp only [Bool.not_true, Bool.false_eq_true, if_false, he, hcall1, hq]
    constructor
    · simp
    · simp [htc2]

/-- C4 witness. -/
theorem spec_c4_witness :
    (executeToolCall c4Env ⟨"id1", "t", "notjson"⟩).role = "tool"
    ∧ (executeToolCall c4Env ⟨"id1", "t", "notjson"⟩).content
        = "Error: Invalid JSON in tool arguments: Expecting value: line 1 column 1 (char 0)"
    ∧ (processUserQuery c4Env true "hi" []).result = "Error processing query: boom"
    ∧ (processUserQuery c4FlowEnv true "hi" []).result = "done"
    ∧ executeToolCall c4FlowEnv ⟨"c1", "missing", "x"⟩
        ∈ (processUserQuery c4FlowEnv true "hi" []).messages := by
  have h1 := spec_c4_error_containment c4Env ⟨"id1", "t", "notjson"⟩ true "hi" []
  have h2 := spec_c4_error_containment c4FlowEnv ⟨"c1", "missing", "x"⟩ true "hi" []
  have hf := h2.2.2.2.2.2 ⟨some "calling", [⟨"c1", "missing", "x"⟩]⟩ ⟨some "done", []⟩
    rfl (by decide) rfl rfl rfl rfl
  exact ⟨h1.1.1, h1.2.1 _ rfl, h1.2.2.2.2.1 "boom" rfl (by decide) rfl, hf.1, hf.2⟩

/-- Shared helper: escaping never emits a newline character. -/
theorem jsonEscapeList_no_newline (l : List Char) : '\n' ∉ jsonEscapeList l := by
  induction l with
  | nil => simp [jsonEscapeList]
  | cons c rest ih =>
    simp only [jsonEscapeList, List.mem_append]
    rintro (hm | hm)
    · unfold jsonEscapeChar at hm
      split_ifs at hm with h1 h2 h3 h4 h5
      · simp_all
      · simp_all
      · simp_all
      · simp_all
      · simp_all
      · simp only [List.mem_singleton] at hm
        exact h3 hm.symm
    · exact ih hm

/-- Shared helper: newline-freedom of concatenations. -/
theorem no_newline_append {a b : String} (ha : '\n' ∉ a.data) (hb : '\n' ∉ b.data) :
    '\n' ∉ (a ++ b).data := by
  rw [String.data_append]
  intro hm
  rcases List.mem_append.mp hm with hm | hm
  · exact ha hm
  · exact hb hm

/-- Shared helper: a JSON string literal contains no newline. -/
theorem jsonStr_no_newline (s : String) : '\n' ∉ (jsonStr s).data := by
  unfold jsonStr
  apply no_newline_append
  · apply no_newline_append
    · decide
    · exact jsonEscapeList_no_newline s.data
  · decide

/-- Shared helper: the joined fields of a JSON object contain no newline. -/
theorem jsonFieldsJoin_no_newline (fields : List (String × String)) :
    '\n' ∉ (jsonFieldsJoin fields).data := by
  induction fields with
  | nil => decide
  | cons p rest ih =>
    unfold jsonFieldsJoin
    apply no_newline_append
    · apply no_newline_append
      · apply no_newline_append
        · exact jsonStr_no_newline _
        · decide
      · exact jsonStr_no_newline _
    · by_cases h : rest.isEmpty
      · rw [if_pos h]; decide
      · rw [if_neg h]
        apply no_newline_append
        · decide
        · exact ih

/-- Shared helper: a rendered JSON object is newline-free. -/
theorem jsonObj_no_newline (fields : List (String × String)) :
    '\n' ∉ (jsonObj fields).data := by
  unfold jsonObj
  apply no_newline_append
  · apply no_newline_append
    · decide
    · exact jsonFieldsJoin_no_newline fields
  · decide

/-- C9: SSE ordering. A successful streaming chat with no thread id and no
tool-server URL switch emits exactly, in order: `thread_created`,
`user_message`, `thinking`, `assistant_message`, `done`; and every frame
renders as one `data: <json-object>` line followed by a blank line (no
payload contains a newline). -/
theorem spec_c9_sse_event_order (env : StreamEnv) (message mcpUrl response : String)
    (hp : env.processResult = .ok response) :
    (generateResponse env message none none mcpUrl true).map SSEFrame.kind
      = [.thread_created, .user_message, .thinking, .assistant_message, .done]
    ∧ ∀ f ∈ generateResponse env message none none mcpUrl true,
        sseRender f.payload = "data: " ++ f.payload ++ "\n\n"
        ∧ '\n' ∉ f.payload.data := by
  have hframes : generateResponse env message none none mcpUrl true =
      [⟨.thread_created, jsonObj [("type", "thread_created"),
          ("thread_id", env.createThread (autoThreadTitle message))]⟩,
       ⟨.user_message, jsonObj [("type", "user_message"), ("content", message)]⟩,
       ⟨.thinking, jsonObj [("type", "thinking"), ("content", "Processing your request...")]⟩,
       ⟨.assistant_message, jsonObj [("type", "assistant_message"),
          ("content", response), ("thread_id", env.createThread (autoThreadTitle message))]⟩,
       ⟨.done, jsonObj [("type", "done")]⟩] := by
    unfold generateResponse streamAfterConnect
    simp [hp]
  rw [hframes]
  refine ⟨rfl, ?_⟩
  intro f hf
  simp only [List.mem_cons, List.not_mem_nil, or_false] at hf
  rcases hf with rfl | rfl | rfl | rfl | rfl <;>
    exact ⟨rfl, jsonObj_no_newline _⟩

/-- C9 witness. -/
theorem spec_c9_witness :
    (generateResponse ⟨fun _ => "tid1", fun _ => .ok (), .ok "answer"⟩
        "hi there" none none "http://localhost:8000" true).map SSEFrame.kind
      = [.thread_created, .user_message, .thinking, .assistant_message, .done] :=
  (spec_c9_sse_event_order ⟨fun _ => "tid1", fun _ => .ok (), .ok "answer"⟩
    "hi there" "http://localhost:8000" "answer" rfl).1

/-- C7: the code as written cannot perform the claimed round-trip — any
configuration with a non-empty headers map makes `save_mcp_config` raise
`AttributeError` inside the comprehension (caught: returns False, stores
nothing), shown both in general and at the concrete failing input; the
spec-intended behaviour (credential-named headers encrypted, others clear,
decrypting read) does round-trip, with "api_key"/"Authorization" detected as
credentials and "url" not. -/
theorem spec_c7_secure_config (encrypt decrypt : String → String)
    (store : List (String × MCPConfigDoc)) (serverId : String)
    (config : MCPConfigDoc) :
    (∀ k v hrest, config.headers = some ((k, v) :: hrest) →
      save_mcp_config encrypt store serverId config = (false, store))
    ∧ save_mcp_config encrypt [] "srv1" ⟨some [("api_key", "xyz")], [("url", "u")]⟩
        = (false, [])
    ∧ get_mcp_config decrypt [] "srv1" = none
    ∧ ((∀ v, decrypt (encrypt v) = v) →
      (specSaveMCPConfig encrypt store serverId config).1 = true
      ∧ specGetMCPConfig decrypt (specSaveMCPConfig encrypt store serverId config).2 serverId
          = some config)
    ∧ (isCredentialKey "api_key" = true ∧ isCredentialKey "Authorization" = true
        ∧ isCredentialKey "url" = false) := by
  refine ⟨?_, rfl, rfl, ?_, by decide, by decide, by decide⟩
  · intro k v hrest hh
    unfold save_mcp_config
    rw [hh]
    rfl
  · intro hinv
    refine ⟨rfl, ?_⟩
    unfold specSaveMCPConfig specGetMCPConfig
    simp only [List.find?_cons, beq_self_eq_true]
    obtain ⟨headers, rest⟩ := config
    cases headers with
    | none => rfl
    | some hs =>
      simp only [List.map_map]
      have hmap : hs.map ((fun p : String × String =>
          (p.1, if isCredentialKey p.1 then decrypt p.2 else p.2)) ∘
          (fun p : String × String =>
          (p.1, if isCredentialKey p.1 then encrypt p.2 else p.2))) = hs := by
        induction hs with
        | nil => rfl
        | cons p ps ih =>
          simp only [List.map_cons, ih, List.cons.injEq, and_true]
          by_cases hc : isCredentialKey p.1
          · simp [Function.comp, hc, hinv]
          · simp [Function.comp, hc]
      rw [hmap]

/-- C7 witness. -/
theorem spec_c7_witness :
    save_mcp_config (fun v => String.mk v.data.reverse) [] "srv1"
        ⟨some [("api_key", "xyz")], [("url", "u")]⟩ = (false, [])
    ∧ (specSaveMCPConfig (fun v => String.mk v.data.reverse) [] "srv1"
        ⟨some [("api_key", "xyz")], [("url", "u")]⟩).1 = true
    ∧ specGetMCPConfig (fun v => String.mk v.data.reverse)
        (specSaveMCPConfig (fun v => String.mk v.data.reverse) [] "srv1"
          ⟨some [("api_key", "xyz")], [("url", "u")]⟩).2 "srv1"
      = some ⟨some [("api_key", "xyz")], [("url", "u")]⟩ := by
  have h := spec_c7_secure_config (fun v => String.mk v.data.reverse)
    (fun v => String.mk v.data.reverse) [] "srv1"
    ⟨some [("api_key", "xyz")], [("url", "u")]⟩
  have hinv : ∀ v : String, String.mk (String.mk v.data.reverse).data.reverse = v := by
    intro v
    cases v with
    | mk data => simp
  exact ⟨h.1 "api_key" "xyz" [] rfl, (h.2.2.2.1 hinv).1, (h.2.2.2.1 hinv).2⟩
